import Mathlib

/-!
A shallow embedding, in Lean 4, of the query-resolution core of the
football-chatbot repository (files `src/utils.py`, `src/api_client.py`,
`src/nlp/resolver.py`, `src/main.py`), together with proofs settling the
specification claims about it.

Strings are modelled as `List Char` internally (Lean `String` wrappers at
the boundaries).  Python `str.strip`/`str.split`/`str.lower` are modelled
over their ASCII behaviour.  `datetime.strptime` is modelled by the exact
component patterns CPython compiles for `%Y %y %m %d` (see comments at the
definitions), and `strftime('%Y-%m-%d')` is modelled as the zero-padded
ISO form (4-digit year, 2-digit month and day).
-/

namespace Football

/-- ASCII digit test, as in the regex class `\d` restricted to ASCII input. -/
def isDigitChar (c : Char) : Bool := 48 ≤ c.toNat && c.toNat ≤ 57

/-- Python `str.strip()` whitespace class, restricted to ASCII
(space, tab, newline, carriage return, vertical tab, form feed). -/
def isPySpace (c : Char) : Bool :=
  c.toNat = 32 || c.toNat = 9 || c.toNat = 10 || c.toNat = 13 ||
  c.toNat = 11 || c.toNat = 12

/-- Python `str.strip()`: drop whitespace from both ends. -/
def pyStrip (cs : List Char) : List Char :=
  ((cs.dropWhile isPySpace).reverse.dropWhile isPySpace).reverse

/-- The decimal digit characters, for Python `str(int)` output. -/
def digitChar : Nat → Char
  | 0 => '0' | 1 => '1' | 2 => '2' | 3 => '3' | 4 => '4'
  | 5 => '5' | 6 => '6' | 7 => '7' | 8 => '8' | 9 => '9'
  | _ => '*'

/-- Numeric value of a digit character (`int` on a digit). -/
def charVal (c : Char) : Nat := c.toNat - 48

/-- Model: `int` on a digit string: fold of decimal digits. -/
def digitsVal (cs : List Char) : Nat :=
  cs.foldl (fun a c => 10 * a + charVal c) 0

/-- Decimal digit list of a natural number (fuel-driven so that the kernel
can evaluate it; `natDigitsFuel (n+1) n` always has enough fuel). -/
def natDigitsFuel : Nat → Nat → List Char
  | 0, _ => []
  | fuel + 1, n =>
    if n < 10 then [digitChar n]
    else natDigitsFuel fuel (n / 10) ++ [digitChar (n % 10)]

/-- Decimal digits of `n`, most significant first: Python `str(n)` for `n ≥ 0`. -/
def natDigits (n : Nat) : List Char := natDigitsFuel (n + 1) n

/-- Python `str` on a natural number. -/
def natToStr (n : Nat) : String := String.mk (natDigits n)

/-- Python `str` on an `int` (possibly negative). -/
def pyIntStr (n : Int) : String :=
  if n < 0 then String.mk ('-' :: natDigits n.natAbs) else natToStr n.toNat

/-- The `str | int | None` input type of `normalize_season`. -/
inductive SeasonRaw where
  | none
  | int (n : Int)
  | str (s : String)
deriving Repr, DecidableEq

/-- Body of the regex branch `^(\d{4})\D+\d{2,4}$` of `normalize_season`
(after `strip`): four digits, a nonempty run of non-digits, then 2–4
digits to the end; the group is the first four characters. -/
def seasonPat44 (cs : List Char) : Option String :=
  let p4 := cs.take 4
  let rest := cs.drop 4
  let nd := rest.takeWhile (fun c => !isDigitChar c)
  let dd := rest.drop nd.length
  if p4.length = 4 && p4.all isDigitChar && !nd.isEmpty &&
     dd.all isDigitChar && 2 ≤ dd.length && dd.length ≤ 4 then
    some (String.mk p4)
  else
    none

/-- Body of the regex branch `^(\d{4})\D+\d{2}$` (unreachable after
`seasonPat44`, kept because the source tries it). -/
def seasonPat42 (cs : List Char) : Option String :=
  let p4 := cs.take 4
  let rest := cs.drop 4
  let nd := rest.takeWhile (fun c => !isDigitChar c)
  let dd := rest.drop nd.length
  if p4.length = 4 && p4.all isDigitChar && !nd.isEmpty &&
     dd.all isDigitChar && dd.length = 2 then
    some (String.mk p4)
  else
    none

/-- Body of the regex branch `^(\d{2})\D+\d{2}$`: the two-digit/two-digit
season shape, with the century-window heuristic from the source
(`1900` if the two-digit year is `≥ 50`, else `2000`). -/
def seasonPat22 (cs : List Char) : Option String :=
  let p2 := cs.take 2
  let rest := cs.drop 2
  let nd := rest.takeWhile (fun c => !isDigitChar c)
  let dd := rest.drop nd.length
  if p2.length = 2 && p2.all isDigitChar && !nd.isEmpty &&
     dd.all isDigitChar && dd.length = 2 then
    let yy := digitsVal p2
    let century := if 50 ≤ yy then 1900 else 2000
    some (natToStr (century + yy))
  else
    none

/-- Model: `re.fullmatch(r"\d{4}", s)`: exactly four digits. -/
def seasonPat4 (cs : List Char) : Bool :=
  cs.length = 4 && cs.all isDigitChar

/-- Model: `normalize_season` from `src/utils.py`: accepts `str | int | None`,
returns the 4-digit starting year as a string, or `none`. -/
def normalize_season : SeasonRaw → Option String
  | .none => Option.none
  | .int n => some (pyIntStr n)
  | .str s =>
    let cs := pyStrip s.toList
    match seasonPat44 cs with
    | some r => some r
    | Option.none =>
      match seasonPat42 cs with
      | some r => some r
      | Option.none =>
        match seasonPat22 cs with
        | some r => some r
        | Option.none =>
          if seasonPat4 cs then some (String.mk cs) else Option.none

example : normalize_season (.str "2022/2023") = some "2022" := by decide
example : normalize_season (.str "2021/22") = some "2021" := by decide
example : normalize_season (.str "22/23") = some "2022" := by decide
example : normalize_season (.str "95/96") = some "1995" := by decide
example : normalize_season (.str "2024") = some "2024" := by decide
example : normalize_season (.str "current") = Option.none := by decide
example : normalize_season (.int 2024) = some "2024" := by decide
example : normalize_season (.int 5) = some "5" := by decide
example : normalize_season (.str "5") = Option.none := by decide

/-! ## Dates: `standardize_date` and `deduce_season_from_date` -/

/-- A parsed Gregorian date (what `datetime.strptime` produces). -/
structure PyDate where
  year : Nat
  month : Nat
  day : Nat
deriving Repr, DecidableEq

/-- Gregorian leap-year rule used by `datetime`. -/
def isLeap (y : Nat) : Bool :=
  y % 4 = 0 && (y % 100 ≠ 0 || y % 400 = 0)

/-- Number of days in a month, as validated by the `datetime` constructor. -/
def daysInMonth (y m : Nat) : Nat :=
  if m = 2 then (if isLeap y then 29 else 28)
  else if m = 4 || m = 6 || m = 9 || m = 11 then 30
  else 31

/-- The four `strptime` components appearing in the formats of
`standardize_date`.  CPython compiles them to the regexes
`%Y ↦ \d{4}`, `%y ↦ \d{2}`, `%m ↦ (1[0-2]|0[1-9]|[1-9])`,
`%d ↦ (3[01]|[12]\d|0[1-9]|[1-9])`; against a separator-free digit part
these accept exactly the sets encoded below. -/
inductive DComp where
  | Y4   -- %Y
  | y2   -- %y
  | mo   -- %m
  | dy   -- %d
deriving Repr, DecidableEq

/-- Match one format component against one separator-delimited part. -/
def matchComp (comp : DComp) (part : List Char) : Option Nat :=
  if part.all isDigitChar && !part.isEmpty then
    let v := digitsVal part
    match comp with
    | .Y4 => if part.length = 4 then some v else none
    | .y2 => if part.length = 2 then some v else none
    | .mo => if part.length ≤ 2 && 1 ≤ v && v ≤ 12 then some v else none
    | .dy => if part.length ≤ 2 && 1 ≤ v && v ≤ 31 then some v else none
  else none

/-- Field order of a date format. -/
inductive DOrder where
  | ymd
  | dmy
  | mdy
deriving Repr, DecidableEq

/-- One entry of the `formats` list in `standardize_date`: a field order,
a separator character, and whether the year is two-digit (`%y`). -/
structure DFmt where
  ord : DOrder
  sep : Char
  y2 : Bool
deriving Repr, DecidableEq

/-- Split a character list at every occurrence of `sep`
(Python-style: `n` separators yield `n+1` parts, possibly empty). -/
def splitSep (sep : Char) : List Char → List (List Char)
  | [] => [[]]
  | c :: rest =>
    let r := splitSep sep rest
    if c = sep then [] :: r
    else
      match r with
      | h :: t => (c :: h) :: t
      | [] => [[c]]

/-- The component-matching core of `strptime` for the `standardize_date`
formats, given the year part, month part and day part: the year component
is `%y` or `%Y` according to `y2`, the two-digit year is widened by
CPython's rule (`00–68 ↦ 2000s`, `69–99 ↦ 1900s`), and the resulting date
must be a valid `datetime` (year ≥ 1, day within the month). -/
def parseCore (y2 : Bool) (py pm pd : List Char) : Option PyDate :=
  match matchComp (if y2 then .y2 else .Y4) py, matchComp .mo pm,
      matchComp .dy pd with
  | some yraw, some m, some d =>
    let y := if y2 then (if yraw ≤ 68 then 2000 + yraw else 1900 + yraw) else yraw
    if 1 ≤ y && d ≤ daysInMonth y m then some ⟨y, m, d⟩ else none
  | _, _, _ => none

/-- Model: `datetime.strptime(s, fmt)` for one `standardize_date` format:
the string must be exactly `part sep part sep part` with the parts fed to
`parseCore` in the format's field order.  Returns the parsed date. -/
def parseWithFormat (f : DFmt) (cs : List Char) : Option PyDate :=
  match splitSep f.sep cs with
  | [p1, p2, p3] =>
    match f.ord with
    | .ymd => parseCore f.y2 p1 p2 p3
    | .dmy => parseCore f.y2 p3 p2 p1
    | .mdy => parseCore f.y2 p3 p1 p2
  | _ => none

/-- The `formats` list of `standardize_date`, in source order:
full-year `%Y-%m-%d`, `%Y/%m/%d`, `%d-%m-%Y`, `%d/%m/%Y`, `%m-%d-%Y`,
`%m/%d/%Y`, then the two-digit-year variants `%d-%m-%y`, `%d/%m/%y`,
`%m-%d-%y`, `%m/%d/%y`, `%y-%m-%d`, `%y/%m/%d`. -/
def dateFormats : List DFmt :=
  [⟨.ymd, '-', false⟩, ⟨.ymd, '/', false⟩,
   ⟨.dmy, '-', false⟩, ⟨.dmy, '/', false⟩,
   ⟨.mdy, '-', false⟩, ⟨.mdy, '/', false⟩,
   ⟨.dmy, '-', true⟩, ⟨.dmy, '/', true⟩,
   ⟨.mdy, '-', true⟩, ⟨.mdy, '/', true⟩,
   ⟨.ymd, '-', true⟩, ⟨.ymd, '/', true⟩]

/-- The `for fmt in formats` loop: first successful parse wins. -/
def firstParse : List DFmt → List Char → Option PyDate
  | [], _ => none
  | f :: rest, cs =>
    match parseWithFormat f cs with
    | some d => some d
    | none => firstParse rest cs

/-- Two zero-padded decimal digits (`strftime` `%m`/`%d` for values < 100). -/
def pad2 (n : Nat) : List Char := [digitChar (n / 10 % 10), digitChar (n % 10)]

/-- Four zero-padded decimal digits (`strftime` `%Y`, modelled as
zero-padded to four digits). -/
def pad4 (n : Nat) : List Char :=
  [digitChar (n / 1000 % 10), digitChar (n / 100 % 10),
   digitChar (n / 10 % 10), digitChar (n % 10)]

/-- Model: `date_obj.strftime('%Y-%m-%d')`. -/
def isoOfDate (d : PyDate) : List Char :=
  pad4 d.year ++ '-' :: (pad2 d.month ++ '-' :: pad2 d.day)

/-- Model: `standardize_date` from `src/utils.py`: empty input fails, otherwise
strip, try the formats in order, and render the first parse as ISO. -/
def standardize_date (s : String) : Option String :=
  if s = "" then none
  else
    match firstParse dateFormats (pyStrip s.toList) with
    | some d => some (String.mk (isoOfDate d))
    | none => none

/-- Model: `deduce_season_from_date` from `src/utils.py`: standardize the date,
re-parse the ISO string with `%Y-%m-%d`, then season = year − 1 when the
month is ≤ 6, else year. -/
def deduce_season_from_date (s : String) : Option String :=
  match standardize_date s with
  | none => none
  | some iso =>
    match parseWithFormat ⟨.ymd, '-', false⟩ iso.toList with
    | none => none
    | some d => some (natToStr (if d.month ≤ 6 then d.year - 1 else d.year))

example : standardize_date "16-05-2025" = some "2025-05-16" := by decide
example : standardize_date "2025/05/16" = some "2025-05-16" := by decide
example : standardize_date "not a date" = none := by decide
example : standardize_date "" = none := by decide
example : standardize_date "01-02-2024" = some "2024-02-01" := by decide
example : standardize_date "31-02-2024" = none := by decide
example : standardize_date "29-02-2024" = some "2024-02-29" := by decide
example : standardize_date "29-02-2023" = none := by decide
example : deduce_season_from_date "2024-08-15" = some "2024" := by decide
example : deduce_season_from_date "2024-02-15" = some "2023" := by decide
example : deduce_season_from_date "junk" = none := by decide

/-! ## `src/api_client.py` -/

/-- Substring test (Python `"None" in h2h`). -/
def hasSubstr (needle : List Char) : List Char → Bool
  | [] => needle.isEmpty
  | c :: rest => needle.isPrefixOf (c :: rest) || hasSubstr needle rest

example : hasSubstr "None".toList "33-None".toList = true := by decide
example : hasSubstr "None".toList "33-529".toList = false := by decide

/-- What the transport layer did for one request in `_call`:
either a response arrived (with its HTTP status and whether the body is
valid JSON), or `requests.get` itself raised (timeout / connection error),
so no response object was ever bound to `r`. -/
inductive HttpOutcome where
  | response (status : Nat) (validJson : Bool)
  | transportFailure
deriving Repr, DecidableEq

/-- Result of `_call`: a successful JSON body, a raised `ApiError`
carrying a user-presentable message, or an uncategorized Python exception
escaping the handler. -/
inductive CallResult where
  | success
  | apiError (msg : String)
  | uncaughtUnboundLocal
deriving Repr, DecidableEq

/-- Model: `_call` from `src/api_client.py`.  `r.raise_for_status()` raises
`HTTPError` (a `RequestException`) exactly for statuses 400–599, with `r`
bound, and the handler then categorizes on `r.status_code`; invalid JSON
raises `ValueError`, re-raised as `ApiError`.  When `requests.get` itself
raises (timeout or transport failure), the `except requests.RequestException`
handler evaluates `r.status_code` with `r` never assigned, which raises
`UnboundLocalError` instead of an `ApiError`. -/
def pyCall (o : HttpOutcome) : CallResult :=
  match o with
  | .response status validJson =>
    if 400 ≤ status && status < 600 then
      if status = 429 then
        .apiError "API rate limit exceeded. Please try again in a minute."
      else if status = 404 then
        .apiError "The requested data was not found."
      else if 500 ≤ status then
        .apiError "The API server is currently unavailable. Please try again later."
      else
        .apiError "API error"
    else if validJson then .success
    else .apiError "Invalid response from API"
  | .transportFailure => .uncaughtUnboundLocal

/-- Model: `is_league_phase_format` from `src/api_client.py`. -/
def is_league_phase_format (season : Nat) : Bool := 2024 ≤ season

/-- Python truthiness of an optional integer (`if x:`). -/
def truthyNat : Option Nat → Bool
  | some n => n ≠ 0
  | none => false

/-- Python truthiness of an optional string (`if x:`). -/
def truthyStr : Option String → Bool
  | some s => s ≠ ""
  | none => false

/-- A query-parameter value (int or string). -/
inductive PVal where
  | nat (n : Nat)
  | str (s : String)
deriving Repr, DecidableEq

/-- The argument record of `get_fixtures` (all Python defaults are `None`). -/
structure FixtureArgs where
  league_id : Option Nat := none
  season : Option Nat := none
  date : Option String := none
  h2h : Option String := none
  fixture_id : Option Nat := none
  stage : Option String := none
  last : Option Nat := none
  next : Option Nat := none
  team_id : Option Nat := none
deriving Repr, DecidableEq

/-- Where `get_fixtures` sends the request and with which parameters. -/
inductive FixtureRoute where
  | byId (id : Nat)
  | headToHead (params : List (String × PVal))
  | general (params : List (String × PVal))
deriving Repr, DecidableEq

/-- Is the route the head-to-head endpoint? -/
def FixtureRoute.isH2h : FixtureRoute → Bool
  | .headToHead _ => true
  | _ => false

/-- Append a parameter when its optional integer value is truthy. -/
def addNatParam (ps : List (String × PVal)) (key : String) :
    Option Nat → List (String × PVal)
  | some n => if n ≠ 0 then ps ++ [(key, .nat n)] else ps
  | none => ps

/-- Append a parameter when its optional string value is truthy. -/
def addStrParam (ps : List (String × PVal)) (key : String) :
    Option String → List (String × PVal)
  | some s => if s ≠ "" then ps ++ [(key, .str s)] else ps
  | none => ps

/-- The non-`fixture_id` path of `get_fixtures`: the params dict is built
in source order (league, date, stage, last, next, season, team), and a
truthy `h2h` that does not contain the substring `"None"` adds the `h2h`
param and routes to `fixtures/headtohead`; everything else goes to the
general `fixtures` listing. -/
def get_fixtures_params (a : FixtureArgs) : FixtureRoute :=
  let ps := addNatParam [] "league" a.league_id
  let ps := addStrParam ps "date" a.date
  let ps := addStrParam ps "stage" a.stage
  let ps := addNatParam ps "last" a.last
  let ps := addNatParam ps "next" a.next
  let ps := addNatParam ps "season" a.season
  let ps := addNatParam ps "team" a.team_id
  match a.h2h with
  | some h =>
    if h ≠ "" && !hasSubstr "None".toList h.toList then
      .headToHead (ps ++ [("h2h", .str h)])
    else .general ps
  | none => .general ps

/-- The routing logic of `get_fixtures` from `src/api_client.py`:
a truthy `fixture_id` short-circuits to `fixtures?id=`, ignoring every
other argument; otherwise `get_fixtures_params` decides the route. -/
def get_fixtures_route (a : FixtureArgs) : FixtureRoute :=
  match a.fixture_id with
  | some fid =>
    if fid ≠ 0 then .byId fid else get_fixtures_params a
  | none => get_fixtures_params a

example :
    get_fixtures_route { fixture_id := some 7, league_id := some 39 } = .byId 7 := by
  decide
example :
    get_fixtures_route { h2h := some "33-529", last := some 3 } =
      .headToHead [("last", .nat 3), ("h2h", .str "33-529")] := by
  decide
example :
    get_fixtures_route { h2h := some "33-None", last := some 3 } =
      .general [("last", .nat 3)] := by
  decide

/-- One side of a fixture as it appears in the provider JSON:
a team name and the `winner` flag (`true`, `false`, or JSON `null`). -/
structure TeamSide where
  name : String
  winner : Option Bool
deriving Repr, DecidableEq

/-- A fixture's `teams` object. -/
structure BFixture where
  home : TeamSide
  away : TeamSide
deriving Repr, DecidableEq

/-- A bracket: stage name → fixtures of that stage (`dict` as assoc list). -/
def Bracket := List (String × List BFixture)

/-- Python exceptions that `final_ranks_from_bracket` can raise. -/
inductive PyExc where
  | keyError (key : String)
  | indexError
  | nameError (name : String)
deriving Repr, DecidableEq

/-- Python truthiness of a JSON winner flag (`null` and `False` are falsy). -/
def truthyWinner : Option Bool → Bool
  | some b => b
  | none => false

/-- Dict lookup, raising `KeyError` on a missing key. -/
def bracketGet (b : Bracket) (key : String) : Except PyExc (List BFixture) :=
  match b.find? (fun p => p.1 = key) with
  | some p => .ok p.2
  | none => .error (.keyError key)

/-- Model: `final_ranks_from_bracket` from `src/api_client.py`, with Python
evaluation order and error semantics.  The function reads the `"Final"`
stage's first fixture, picks winner/runner-up by the home `winner` flag,
collects the non-winning participants of `"Semi-finals"`, and then builds
the result dict — whose entries for ranks 5–8 read the name
`quarter_losers`, which is bound nowhere in the source, so evaluating the
dict literal raises `NameError` after `semi_losers[0]` and
`semi_losers[1]` have been evaluated.  Consequently the function never
returns normally. -/
def final_ranks_from_bracket (b : Bracket) : Except PyExc (List (String × Nat)) := do
  let finalFxs ← bracketGet b "Final"
  let f ← match finalFxs.head? with
    | some f => Except.ok f
    | none => Except.error PyExc.indexError
  let _winner := if truthyWinner f.home.winner then f.home else f.away
  let _runner := if truthyWinner f.home.winner then f.away else f.home
  let semi ← bracketGet b "Semi-finals"
  let semiLosers :=
    (semi.flatMap (fun fx => [fx.home, fx.away])).filter
      (fun t => !truthyWinner t.winner)
  let _l0 ← match semiLosers.get? 0 with
    | some t => Except.ok t
    | none => Except.error PyExc.indexError
  let _l1 ← match semiLosers.get? 1 with
    | some t => Except.ok t
    | none => Except.error PyExc.indexError
  .error (.nameError "quarter_losers")

/-! ## `src/nlp/resolver.py`: `team_name_to_id` -/

/-- ASCII lowercase of a string (SQLite `COLLATE NOCASE` and Python
`str.lower()` on ASCII names). -/
def lowerAscii (s : String) : String := String.mk (s.toList.map Char.toLower)

/-- A row of the persistent `team` table: `(id, name, country)`. -/
structure TeamRec where
  id : Nat
  name : String
  country : Option String
deriving Repr, DecidableEq

/-- The memo key of the `lru_cache` on `team_name_to_id`: the exact
argument triple `(name, league_id, season)`. -/
abbrev MemoKey := String × Option Nat × Option Nat

/-- The state `team_name_to_id` reads and writes: the persistent SQLite
`team` table, and the in-process `lru_cache` memo (association list from
argument triple to memoized result, including memoized `None`s). -/
structure ResolverState where
  teamTable : List TeamRec
  teamMemo : List (MemoKey × Option Nat)
deriving DecidableEq

/-- Model: `SELECT id FROM team WHERE name = ? COLLATE NOCASE LIMIT 1`. -/
def findTeamCI (table : List TeamRec) (name : String) : Option TeamRec :=
  table.find? (fun t => lowerAscii t.name = lowerAscii name)

/-- Model: `INSERT OR IGNORE INTO team(id, name, country)`: first writer by
primary key `id` wins. -/
def insertTeamIfAbsent (table : List TeamRec) (t : TeamRec) : List TeamRec :=
  if table.any (fun r => r.id = t.id) then table else table ++ [t]

/-- Result of one `team_name_to_id` call: the returned id (or `none`),
the state after the call, and whether a remote search was issued. -/
structure ResolveOutcome where
  result : Option Nat
  state : ResolverState
  remoteCalled : Bool
deriving DecidableEq

/-- Drop a falsy optional argument, as the source only adds `league`
and `season` to the remote search params when truthy. -/
def truthyOpt (o : Option Nat) : Option Nat :=
  match o with
  | some n => if n ≠ 0 then some n else none
  | none => none

/-- Model: `team_name_to_id` from `src/nlp/resolver.py`.  `remote` is the
`/teams` search collaborator, returning the first result for the given
params (`none` when the search yields nothing); it is a pure function,
matching the spec's idempotent-remote-call contract.  The `lru_cache`
decorator is modelled first: a memo hit returns the stored value — hit or
miss — without running the body.  The body checks the persistent table
case-insensitively, on miss issues the remote search, inserts a found
team with `INSERT OR IGNORE`, and returns `none` on an empty search
without touching the persistent table.  Either way the `lru_cache`
records the call's result under the exact argument triple (the cache's
`maxsize` bound and LRU eviction are not modelled; statements about the
memo hold while the entry is resident, i.e. within 4096 distinct calls). -/
def team_name_to_id
    (remote : String → Option Nat → Option Nat → Option TeamRec)
    (st : ResolverState) (name : String)
    (league_id : Option Nat := none) (season : Option Nat := none) :
    ResolveOutcome :=
  let key : MemoKey := (name, league_id, season)
  match st.teamMemo.find? (fun p => p.1 = key) with
  | some p => ⟨p.2, st, false⟩
  | none =>
    match findTeamCI st.teamTable name with
    | some t =>
      ⟨some t.id,
       { st with teamMemo := st.teamMemo ++ [(key, some t.id)] }, false⟩
    | none =>
      match remote name (truthyOpt league_id) (truthyOpt season) with
      | some t =>
        ⟨some t.id,
         { teamTable := insertTeamIfAbsent st.teamTable t,
           teamMemo := st.teamMemo ++ [(key, some t.id)] }, true⟩
      | none =>
        ⟨none, { st with teamMemo := st.teamMemo ++ [(key, none)] }, true⟩

/-! ## `src/main.py`: clarification state machine and dispatch -/

/-- The `Intent` enum of `src/nlp/intent_schema.py`. -/
inductive Intent where
  | standings | fixture | match_events | player_stats
  | odds | bracket | head_to_head | unsupported
deriving Repr, DecidableEq

/-- The `Sport` enum of `src/nlp/intent_schema.py`. -/
inductive Sport where
  | football | basketball | rugby | f1 | other | nonsport
deriving Repr, DecidableEq

/-- The `ParsedQuery` record consumed by the dispatcher (absent fields are
`none`, per the schema invariant). -/
structure Parsed where
  intent : Intent
  sport : Sport
  league_name : Option String := none
  team_a : Option String := none
  team_b : Option String := none
  player_name : Option String := none
  season : Option String := none
  date : Option String := none
  which : Option String := none
  count : Option Nat := none
deriving Repr, DecidableEq

/-- The process-wide `PENDING` slot: `{need, intent, parsed}`. -/
structure PendingCtx where
  need : String
  intent : Intent
  parsed : Parsed
deriving Repr, DecidableEq

/-- Model: `SUPPORTED_LEAGUES` from `src/utils.py`. -/
def SUPPORTED_LEAGUES : List String :=
  ["Premier League", "La Liga", "Bundesliga", "Serie A", "Ligue 1",
   "Eredivisie", "Primeira Liga", "UEFA Champions League",
   "UEFA Europa League", "UEFA Conference League"]

/-- Model: `SUPPORTED_LEAGUES_IDS` from `src/utils.py`. -/
def SUPPORTED_LEAGUES_IDS : List Nat := [39, 140, 78, 135, 61, 88, 94, 2, 3, 848]

/-- Model: `UEFA_IDS` from `src/utils.py`. -/
def UEFA_IDS : List Nat := [2, 3, 848]

/-- Model: `SUPPORTED_LEAGUES_LC[key]`: canonical league name whose lowercase
form equals `key`. -/
def supportedLeagueCanon (key : String) : Option String :=
  SUPPORTED_LEAGUES.find? (fun l => lowerAscii l = key)

/-- The clarification question of `ask_for_league` (which also stores the
pending context). -/
def askLeagueMsg : String :=
  "League not recognised.\nSupported leagues: Premier League, La Liga, " ++
  "Bundesliga, Serie A, Ligue 1, Eredivisie, Primeira Liga, " ++
  "UEFA Champions League, UEFA Europa League, UEFA Conference League.\n" ++
  "Which league were you referring to?"

/-- Model: `league_not_supported_msg` from `src/main.py` (the league list is
rendered with Python `str.title()`, which downcases the UEFA acronyms). -/
def league_not_supported_msg (name : String) : String :=
  "Sorry, '" ++ name ++ "' is not currently supported.\n" ++
  "Supported leagues: Premier League, La Liga, Bundesliga, Serie A, " ++
  "Ligue 1, Eredivisie, Primeira Liga, Uefa Champions League, " ++
  "Uefa Europa League, Uefa Conference League."

/-- The fixed sport-scope messages of `_parse_input`. -/
def sportScopeMsg (s : Sport) : String :=
  match s with
  | .basketball => "Support for Basketball will be available soon!"
  | .rugby => "Support for Rugby will be available soon!"
  | .f1 => "Support for F1 will be available soon!"
  | .other => "Sorry, that sport isn't available yet."
  | _ =>
    "I am a SPORTS chatbot! I answer questions about football, " ++
    "and soon basketball, rugby and Formula-1. " ++
    "Your question seems to be outside that scope."

/-- What `_parse_input` hands back to `handle_query`: either a parsed
query plus the intent to dispatch, or an error/clarification message
(the `isinstance(parsed, str)` early return). -/
inductive ParseStep where
  | ok (parsed : Parsed) (intent : Intent)
  | message (msg : String)
deriving Repr, DecidableEq

/-- The sport-validation tail of `_parse_input` (lines 176–192). -/
def sportCheck (parsed : Parsed) (intent : Intent) : ParseStep :=
  if parsed.sport = .football then .ok parsed intent
  else .message (sportScopeMsg parsed.sport)

/-- Model: `_parse_input` from `src/main.py`, with the `PENDING` global made
explicit: takes the pending slot and the turn's text, and returns the new
pending slot with the step result.  `freshParse` is the external
`parse_user_prompt` collaborator.  When `PENDING` is set with need
`"league"`, the stripped turn text is looked up among supported leagues:
on success it is merged into the stored parsed query, `PENDING` is
cleared, and the stored intent is used; on failure the not-supported
message is returned and `PENDING` is left as it was.  Otherwise the turn
is parsed fresh (and `PENDING` is untouched). -/
def parse_input (pending : Option PendingCtx)
    (freshParse : String → Parsed) (userMsg : String) :
    Option PendingCtx × ParseStep :=
  match pending with
  | some p =>
    if p.need = "league" then
      let league_name := String.mk (pyStrip userMsg.toList)
      match supportedLeagueCanon (lowerAscii league_name) with
      | none => (some p, .message (league_not_supported_msg league_name))
      | some canon =>
        let parsed := { p.parsed with league_name := some canon }
        (none, sportCheck parsed p.intent)
    else
      let parsed := freshParse userMsg
      (some p, sportCheck parsed parsed.intent)
  | none =>
    let parsed := freshParse userMsg
    (none, sportCheck parsed parsed.intent)

/-- The per-turn outcome of `handle_query`, stopped at handler selection:
either an early user-facing message, or the chosen intent handler about
to run with the given parsed query and derived season. -/
inductive TurnOutcome where
  | message (msg : String)
  | dispatch (intent : Intent) (parsed : Parsed) (seasonI : Nat)
deriving Repr, DecidableEq

/-- The season-derivation step of `handle_query` (lines 139–142): prefer
the season deduced from the (original) date, else normalize the explicit
season field, else default to `"2024"`. -/
def deriveSeason (date : Option String) (seasonField : Option String) : String :=
  let s :=
    if truthyStr date then deduce_season_from_date (date.getD "")
    else normalize_season (match seasonField with
                           | some s => .str s
                           | none => .none)
  s.getD "2024"

/-- Model: `handle_query` from `src/main.py`, modelled up to handler selection:
parse/validate the turn (`_parse_input`), standardize a present date
(failing the turn on an unparseable one), derive the season, and select
the handler for the intent (the five handled intents dispatch; anything
else is the fixed "didn't understand" message).  The handler bodies
themselves perform remote fetches and are modelled separately. -/
def handle_query_route (pending : Option PendingCtx)
    (freshParse : String → Parsed) (userMsg : String) :
    Option PendingCtx × TurnOutcome :=
  match parse_input pending freshParse userMsg with
  | (p', .message m) => (p', .message m)
  | (p', .ok parsed intent) =>
    let date := parsed.date
    let stepDate : Option Parsed :=
      if truthyStr date then
        match standardize_date (date.getD "") with
        | none => none
        | some std => some { parsed with date := some std }
      else some parsed
    match stepDate with
    | none =>
      (p', .message
        "Invalid date format. Please use a valid date format (e.g., DD-MM-YYYY, YYYY-MM-DD).")
    | some parsed' =>
      let season := deriveSeason date parsed.season
      let seasonI := digitsVal season.toList
      match intent with
      | .bracket | .standings | .fixture | .match_events | .player_stats =>
        (p', .dispatch intent parsed' seasonI)
      | _ => (p', .message "I didn't understand that request.")

/-- Python `str.split()` with no argument (fuel-driven): split on runs of
whitespace, discarding empty tokens. -/
def pySplitWsFuel : Nat → List Char → List (List Char)
  | 0, _ => []
  | fuel + 1, cs =>
    match cs.dropWhile isPySpace with
    | [] => []
    | c :: rest =>
      let w := (c :: rest).takeWhile (fun x => !isPySpace x)
      w :: pySplitWsFuel fuel ((c :: rest).drop w.length)

/-- Python `str.split()` with no argument. -/
def pySplitWs (cs : List Char) : List (List Char) :=
  pySplitWsFuel (cs.length + 1) cs

example : pySplitWs "Erling Haaland".toList = ["Erling".toList, "Haaland".toList] := by decide
example : pySplitWs "  a  b c ".toList = ["a".toList, "b".toList, "c".toList] := by decide

/-- What the opening of `_handle_player_stats` decides to do. -/
inductive PlayerStatsStep where
  | askLeague
  | leagueNotSupported
  | resolvePlayer (name : Option String)
deriving Repr, DecidableEq

/-- The opening of `_handle_player_stats` from `src/main.py` (lines
378–390), up to the `player_name_to_id` call: a truthy multi-word player
name is replaced by `player.split()[1]` (its second whitespace-separated
word); then the league guards run (`ask_for_league` when `lg_id` is falsy
or the league is `'Unknown League'`; the not-supported message when
`lg_id` is not a supported league); otherwise `player_name_to_id` is
called on the (possibly truncated) name. -/
def handle_player_stats_step (parsed : Parsed) (lg_id : Option Nat) :
    PlayerStatsStep :=
  let player : Option String :=
    match parsed.player_name with
    | some p =>
      if p ≠ "" && 1 < (pySplitWs p.toList).length then
        some (String.mk (((pySplitWs p.toList).get? 1).getD []))
      else some p
    | none => none
  if !truthyNat lg_id || parsed.league_name = some "Unknown League" then
    .askLeague
  else if !SUPPORTED_LEAGUES_IDS.contains (lg_id.getD 0) then
    .leagueNotSupported
  else
    .resolvePlayer player

/-- A stored standings query used to exercise the clarification machine. -/
def exParsedC2 : Parsed :=
  { intent := .standings, sport := .football, season := some "2023/24" }

/-! ## Claim theorems -/

/-- Model: `List.find?` over an append skips a prefix on which it finds nothing. -/
theorem find?_append_none {α : Type} (p : α → Bool) (l1 l2 : List α)
    (h : l1.find? p = none) : (l1 ++ l2).find? p = l2.find? p := by
  induction l1 with
  | nil => rfl
  | cons a t ih =>
    cases hp : p a with
    | true =>
      exfalso
      simp [List.find?, hp] at h
    | false =>
      have h' : t.find? p = none := by simpa [List.find?, hp] using h
      simpa [List.find?, hp] using ih h'

/-- C1: for every bracket with a decided `"Final"` and at least two
non-winning `"Semi-finals"` participants, `final_ranks_from_bracket`
raises `NameError` on the unbound name `quarter_losers` instead of
returning a ranking — the function can never return normally, contrary to
the requirement that ranks 1–4 be produced without crashing. -/
theorem C1_final_ranks_always_raises (b : Bracket) (f : BFixture)
    (fs semi : List BFixture) (t0 t1 : TeamSide)
    (hF : bracketGet b "Final" = .ok (f :: fs))
    (hS : bracketGet b "Semi-finals" = .ok semi)
    (h0 : ((semi.flatMap fun fx => [fx.home, fx.away]).filter
            fun t => !truthyWinner t.winner).get? 0 = some t0)
    (h1 : ((semi.flatMap fun fx => [fx.home, fx.away]).filter
            fun t => !truthyWinner t.winner).get? 1 = some t1) :
    final_ranks_from_bracket b = .error (.nameError "quarter_losers") := by
  unfold final_ranks_from_bracket
  rw [hF]
  simp only [bind, Except.bind, List.head?_cons]
  rw [hS]
  simp only [List.get?_eq_getElem?] at h0 h1
  simp [h0, h1]

/-- C1 witness: a concrete two-semi-final bracket with a decided final on
which the function raises `NameError('quarter_losers')`. -/
theorem C1_witness :
    final_ranks_from_bracket
      [("Final", [⟨⟨"Real Madrid", some true⟩, ⟨"Dortmund", some false⟩⟩]),
       ("Semi-finals",
         [⟨⟨"Real Madrid", some true⟩, ⟨"Bayern", some false⟩⟩,
          ⟨⟨"Dortmund", some true⟩, ⟨"PSG", some false⟩⟩])] =
      .error (.nameError "quarter_losers") :=
  C1_final_ranks_always_raises _
    ⟨⟨"Real Madrid", some true⟩, ⟨"Dortmund", some false⟩⟩ []
    [⟨⟨"Real Madrid", some true⟩, ⟨"Bayern", some false⟩⟩,
     ⟨⟨"Dortmund", some true⟩, ⟨"PSG", some false⟩⟩]
    ⟨"Bayern", some false⟩ ⟨"PSG", some false⟩
    rfl rfl rfl rfl

/-- C8: `_call` turns HTTP failures into categorized `ApiError`s (429
rate-limit, 404 not-found, 5xx unavailable, and a generic message for the
remaining 4xx), but a transport failure — where `requests.get` raised and
no response was bound — escapes as `UnboundLocalError` from the handler's
read of `r.status_code`, not as an `ApiError`. -/
theorem C8_call_transport_uncaught :
    pyCall .transportFailure = .uncaughtUnboundLocal ∧
    pyCall (.response 429 true) =
      .apiError "API rate limit exceeded. Please try again in a minute." ∧
    pyCall (.response 404 true) =
      .apiError "The requested data was not found." ∧
    pyCall (.response 503 true) =
      .apiError "The API server is currently unavailable. Please try again later." ∧
    pyCall (.response 403 true) = .apiError "API error" ∧
    pyCall (.response 200 false) = .apiError "Invalid response from API" ∧
    pyCall (.response 200 true) = .success := by
  decide

/-- C9 counterexample: with no `fixture_id` and the h2h argument
`"33-None"` (as `_handle_fixture` builds when the second team id is
`None`), `get_fixtures` routes to the general `fixtures` listing, not to
the head-to-head endpoint. -/
theorem C9_cex :
    ({ h2h := some "33-None", last := some 3 } : FixtureArgs).fixture_id = none ∧
    ({ h2h := some "33-None", last := some 3 } : FixtureArgs).h2h = some "33-None" ∧
    get_fixtures_route { h2h := some "33-None", last := some 3 } =
      .general [("last", .nat 3)] ∧
    (get_fixtures_route { h2h := some "33-None", last := some 3 }).isH2h = false := by
  decide

/-- C9 amended: with no `fixture_id`, a nonempty `h2h` argument that does
not contain the substring `"None"` routes the request to the head-to-head
endpoint; a truthy `fixture_id` routes to `fixtures?id=` and ignores
every other filter. -/
theorem C9_fixtures_routing (a : FixtureArgs) (h : String) (n : Nat)
    (hfid : a.fixture_id = none) (hh : a.h2h = some h) (hne : h ≠ "")
    (hnone : hasSubstr "None".toList h.toList = false) :
    (get_fixtures_route a).isH2h = true ∧
    get_fixtures_route { a with fixture_id := some (n + 1) } = .byId (n + 1) := by
  have hnone' : hasSubstr ['N', 'o', 'n', 'e'] h.data = false := hnone
  constructor
  · unfold get_fixtures_route
    rw [hfid]
    unfold get_fixtures_params
    rw [hh]
    simp [hne, hnone', FixtureRoute.isH2h]
  · unfold get_fixtures_route
    simp

/-- C9 witness: the amended routing rule at a concrete argument record. -/
theorem C9_witness :
    (get_fixtures_route { h2h := some "33-529", last := some 3 }).isH2h = true ∧
    get_fixtures_route
      { h2h := some "33-529", last := some 3, fixture_id := some 8 } = .byId 8 :=
  C9_fixtures_routing { h2h := some "33-529", last := some 3 } "33-529" 7
    rfl rfl (by decide) (by decide)

/-- Model: `dropWhile` leaves a list alone when no element satisfies the predicate. -/
theorem dropWhile_eq_self_of_all {α : Type} (p : α → Bool) (cs : List α)
    (h : ∀ c ∈ cs, p c = false) : cs.dropWhile p = cs := by
  cases cs with
  | nil => rfl
  | cons a t => simp [List.dropWhile, h a (by simp)]

/-- Model: `str.strip()` leaves a string of non-whitespace characters alone. -/
theorem pyStrip_eq_self (cs : List Char) (h : ∀ c ∈ cs, isPySpace c = false) :
    pyStrip cs = cs := by
  unfold pyStrip
  rw [dropWhile_eq_self_of_all _ cs h]
  rw [dropWhile_eq_self_of_all _ cs.reverse
    (fun c hc => h c (List.mem_reverse.mp hc))]
  exact List.reverse_reverse cs

/-- Up to ten, `digitChar` yields a decimal digit character. -/
theorem digitChar_isDigit : ∀ k, k < 10 → isDigitChar (digitChar k) = true := by
  decide

/-- Model: `charVal` inverts `digitChar` below ten. -/
theorem charVal_digitChar : ∀ k, k < 10 → charVal (digitChar k) = k := by
  decide

/-- A digit character is not Python whitespace. -/
theorem isDigit_not_space (c : Char) (h : isDigitChar c = true) :
    isPySpace c = false := by
  unfold isDigitChar at h
  unfold isPySpace
  simp only [Bool.and_eq_true, decide_eq_true_eq] at h
  simp only [Bool.or_eq_false_iff, decide_eq_false_iff_not]
  omega

/-- A digit character's value is at most nine. -/
theorem charVal_le_nine (c : Char) (h : isDigitChar c = true) : charVal c ≤ 9 := by
  unfold isDigitChar at h
  unfold charVal
  simp only [Bool.and_eq_true, decide_eq_true_eq] at h
  omega

/-- Model: `(String.mk cs).toList` is `cs`. -/
theorem toList_mk (cs : List Char) : (String.mk cs).toList = cs := rfl

/-- The fuel argument of `natDigitsFuel` is irrelevant once sufficient. -/
theorem natDigitsFuel_irrel : ∀ f1 f2 n : Nat, n < f1 → n < f2 →
    natDigitsFuel f1 n = natDigitsFuel f2 n := by
  intro f1
  induction f1 with
  | zero => intro f2 n h1 _; omega
  | succ f1 ih =>
    intro f2 n h1 h2
    cases f2 with
    | zero => omega
    | succ f2 =>
      simp only [natDigitsFuel]
      by_cases hn : n < 10
      · rw [if_pos hn, if_pos hn]
      · rw [if_neg hn, if_neg hn]
        rw [ih f2 (n / 10) (by omega) (by omega)]

/-- Model: `natDigits` below ten is a single digit. -/
theorem natDigits_lt10 (n : Nat) (h : n < 10) : natDigits n = [digitChar n] := by
  unfold natDigits
  simp only [natDigitsFuel]
  rw [if_pos h]

/-- Model: `natDigits` from ten up peels off the last digit. -/
theorem natDigits_ge10 (n : Nat) (h : 10 ≤ n) :
    natDigits n = natDigits (n / 10) ++ [digitChar (n % 10)] := by
  unfold natDigits
  conv =>
    lhs
    simp only [natDigitsFuel]
  rw [if_neg (by omega)]
  rw [natDigitsFuel_irrel n (n / 10 + 1) (n / 10) (by omega) (by omega)]

/-- Every character of a decimal rendering is a digit. -/
theorem natDigits_all_digit : ∀ n, (natDigits n).all isDigitChar = true := by
  intro n
  induction n using Nat.strong_induction_on with
  | _ n ih =>
    by_cases h : n < 10
    · rw [natDigits_lt10 n h]
      simp [digitChar_isDigit n h]
    · rw [natDigits_ge10 n (by omega)]
      rw [List.all_append]
      have h1 := ih (n / 10) (by omega)
      simp [h1, digitChar_isDigit (n % 10) (by omega)]

/-- Length of the decimal rendering, one digit. -/
theorem natDigits_len1 (n : Nat) (h : n < 10) : (natDigits n).length = 1 := by
  rw [natDigits_lt10 n h]; rfl

/-- Length of the decimal rendering, two digits. -/
theorem natDigits_len2 (n : Nat) (h1 : 10 ≤ n) (h2 : n < 100) :
    (natDigits n).length = 2 := by
  rw [natDigits_ge10 n h1, List.length_append, natDigits_len1 (n / 10) (by omega)]
  rfl

/-- Length of the decimal rendering, three digits. -/
theorem natDigits_len3 (n : Nat) (h1 : 100 ≤ n) (h2 : n < 1000) :
    (natDigits n).length = 3 := by
  rw [natDigits_ge10 n (by omega), List.length_append,
    natDigits_len2 (n / 10) (by omega) (by omega)]
  rfl

/-- Length of the decimal rendering, four digits. -/
theorem natDigits_len4 (n : Nat) (h1 : 1000 ≤ n) (h2 : n < 10000) :
    (natDigits n).length = 4 := by
  rw [natDigits_ge10 n (by omega), List.length_append,
    natDigits_len3 (n / 10) (by omega) (by omega)]
  rfl

/-- Folding decimal digits stays under the positional bound. -/
theorem foldl_digits_lt (cs : List Char) (a : Nat)
    (h : cs.all isDigitChar = true) :
    cs.foldl (fun x c => 10 * x + charVal c) a < (a + 1) * 10 ^ cs.length := by
  induction cs generalizing a with
  | nil => simp
  | cons c t ih =>
    simp only [List.all_cons, Bool.and_eq_true] at h
    have hv : charVal c ≤ 9 := charVal_le_nine c h.1
    have hstep := ih (10 * a + charVal c) h.2
    calc (c :: t).foldl (fun x c => 10 * x + charVal c) a
        = t.foldl (fun x c => 10 * x + charVal c) (10 * a + charVal c) := rfl
      _ < (10 * a + charVal c + 1) * 10 ^ t.length := hstep
      _ ≤ ((a + 1) * 10) * 10 ^ t.length := by
          have : 10 * a + charVal c + 1 ≤ (a + 1) * 10 := by omega
          exact Nat.mul_le_mul_right _ this
      _ = (a + 1) * 10 ^ (c :: t).length := by
          rw [List.length_cons, pow_succ]
          ring

/-- The value of a digit string is below `10 ^ length`. -/
theorem digitsVal_lt (cs : List Char) (h : cs.all isDigitChar = true) :
    digitsVal cs < 10 ^ cs.length := by
  have := foldl_digits_lt cs 0 h
  simpa [digitsVal] using this

/-- Model: `normalize_season` maps any four-digit string to itself. -/
theorem normalize_fourDigit (cs : List Char) (hlen : cs.length = 4)
    (hdig : cs.all isDigitChar = true) :
    normalize_season (.str (String.mk cs)) = some (String.mk cs) := by
  obtain ⟨c1, c2, c3, c4, rfl⟩ : ∃ a b c d, cs = [a, b, c, d] := by
    match cs, hlen with
    | [a, b, c, d], _ => exact ⟨a, b, c, d, rfl⟩
  simp only [List.all_cons, List.all_nil, Bool.and_eq_true, Bool.and_true] at hdig
  obtain ⟨h1, h2, h3, h4⟩ := hdig
  have hmem : ∀ c ∈ [c1, c2, c3, c4], isPySpace c = false := by
    intro c hc
    simp only [List.mem_cons, List.not_mem_nil, or_false] at hc
    rcases hc with rfl | rfl | rfl | rfl
    exacts [isDigit_not_space _ h1, isDigit_not_space _ h2,
      isDigit_not_space _ h3, isDigit_not_space _ h4]
  unfold normalize_season
  dsimp only
  rw [toList_mk, pyStrip_eq_self _ hmem]
  have h44 : seasonPat44 [c1, c2, c3, c4] = none := by
    unfold seasonPat44
    simp
  have h42 : seasonPat42 [c1, c2, c3, c4] = none := by
    unfold seasonPat42
    simp
  have h22 : seasonPat22 [c1, c2, c3, c4] = none := by
    unfold seasonPat22
    dsimp only
    rw [show List.drop 2 [c1, c2, c3, c4] = [c3, c4] from rfl]
    rw [show List.takeWhile (fun c => !isDigitChar c) [c3, c4] =
      [] from by simp [List.takeWhile, h3]]
    simp
  have hp4 : seasonPat4 [c1, c2, c3, c4] = true := by
    simp [seasonPat4, h1, h2, h3, h4]
  rw [h44, h42, h22, hp4]
  simp

/-- The output of a successful string-input `normalize_season` is four
digit characters. -/
theorem normalize_str_shape (s : String) (r : String)
    (h : normalize_season (.str s) = some r) :
    ∃ cs, r = String.mk cs ∧ cs.length = 4 ∧ cs.all isDigitChar = true := by
  unfold normalize_season at h
  dsimp only at h
  rcases h44 : seasonPat44 (pyStrip s.toList) with _ | r44
  case some =>
    rw [h44] at h
    dsimp only at h
    obtain rfl : r44 = r := by injection h
    unfold seasonPat44 at h44
    dsimp only at h44
    split at h44
    case isTrue hcond =>
      simp only [Bool.and_eq_true, decide_eq_true_eq] at hcond
      obtain ⟨⟨⟨⟨⟨hl4, hall⟩, _⟩, _⟩, _⟩, _⟩ := hcond
      refine ⟨_, ?_, hl4, hall⟩
      injection h44 with h44
      exact h44.symm
    case isFalse => exact absurd h44 (by simp)
  case none =>
    rw [h44] at h
    dsimp only at h
    rcases h42 : seasonPat42 (pyStrip s.toList) with _ | r42
    case some =>
      rw [h42] at h
      dsimp only at h
      obtain rfl : r42 = r := by injection h
      unfold seasonPat42 at h42
      dsimp only at h42
      split at h42
      case isTrue hcond =>
        simp only [Bool.and_eq_true, decide_eq_true_eq] at hcond
        obtain ⟨⟨⟨⟨hl4, hall⟩, _⟩, _⟩, _⟩ := hcond
        refine ⟨_, ?_, hl4, hall⟩
        injection h42 with h42
        exact h42.symm
      case isFalse => exact absurd h42 (by simp)
    case none =>
      rw [h42] at h
      dsimp only at h
      rcases h22 : seasonPat22 (pyStrip s.toList) with _ | r22
      case some =>
        rw [h22] at h
        dsimp only at h
        obtain rfl : r22 = r := by injection h
        unfold seasonPat22 at h22
        dsimp only at h22
        split at h22
        case isTrue hcond =>
          simp only [Bool.and_eq_true, decide_eq_true_eq] at hcond
          obtain ⟨⟨⟨⟨hl2, hall2⟩, _⟩, _⟩, _⟩ := hcond
          have hyy : digitsVal ((pyStrip s.toList).take 2) < 100 := by
            have := digitsVal_lt _ hall2
            rw [hl2] at this
            simpa using this
          set yy := digitsVal ((pyStrip s.toList).take 2) with hyydef
          have hrange :
              1000 ≤ (if 50 ≤ yy then 1900 else 2000) + yy ∧
              (if 50 ≤ yy then 1900 else 2000) + yy < 10000 := by
            split <;> omega
          refine ⟨natDigits ((if 50 ≤ yy then 1900 else 2000) + yy), ?_,
            natDigits_len4 _ hrange.1 hrange.2, natDigits_all_digit _⟩
          injection h22 with h22
          exact h22.symm
        case isFalse => exact absurd h22 (by simp)
      case none =>
        rw [h22] at h
        dsimp only at h
        split at h
        case isTrue hp4 =>
          simp only [seasonPat4, Bool.and_eq_true, decide_eq_true_eq] at hp4
          obtain rfl : String.mk (pyStrip s.toList) = r := by injection h
          exact ⟨_, rfl, hp4.1, hp4.2⟩
        case isFalse => exact absurd h (by simp)

/-- Model: `splitSep` never returns the empty list of parts. -/
theorem splitSep_ne_nil (sep : Char) : ∀ cs : List Char, splitSep sep cs ≠ [] := by
  intro cs
  induction cs with
  | nil => simp [splitSep]
  | cons c t ih =>
    simp only [splitSep]
    by_cases hc : c = sep
    · simp [hc]
    · rw [if_neg hc]
      cases hr : splitSep sep t with
      | nil => exact absurd hr ih
      | cons h t' => simp

/-- A separator-free list splits into itself. -/
theorem splitSep_sepFree (sep : Char) (cs : List Char)
    (h : ∀ c ∈ cs, c ≠ sep) : splitSep sep cs = [cs] := by
  induction cs with
  | nil => rfl
  | cons c t ih =>
    simp only [splitSep]
    rw [if_neg (h c (by simp))]
    rw [ih (fun c' hc' => h c' (by simp [hc']))]

/-- Splitting past a separator-free prefix peels it off as one part. -/
theorem splitSep_append (sep : Char) (a rest : List Char)
    (h : ∀ c ∈ a, c ≠ sep) :
    splitSep sep (a ++ sep :: rest) = a :: splitSep sep rest := by
  induction a with
  | nil => simp [splitSep]
  | cons c t ih =>
    simp only [List.cons_append, splitSep]
    rw [if_neg (h c (by simp))]
    simp only [List.append_eq]
    rw [ih (fun c' hc' => h c' (by simp [hc']))]

/-- All characters of `pad2` are digits. -/
theorem pad2_all_digit (n : Nat) : (pad2 n).all isDigitChar = true := by
  simp [pad2, digitChar_isDigit (n / 10 % 10) (by omega),
    digitChar_isDigit (n % 10) (by omega)]

/-- All characters of `pad4` are digits. -/
theorem pad4_all_digit (n : Nat) : (pad4 n).all isDigitChar = true := by
  simp [pad4, digitChar_isDigit (n / 1000 % 10) (by omega),
    digitChar_isDigit (n / 100 % 10) (by omega),
    digitChar_isDigit (n / 10 % 10) (by omega),
    digitChar_isDigit (n % 10) (by omega)]

/-- A digit character differs from any non-digit character. -/
theorem digit_ne_sep (c : Char) (h : isDigitChar c = true) (sep : Char)
    (hsep : isDigitChar sep = false) : c ≠ sep := by
  intro e
  rw [e, hsep] at h
  cases h

/-- No character of `pad2` equals a non-digit separator. -/
theorem pad2_sepFree (n : Nat) (sep : Char) (hsep : isDigitChar sep = false) :
    ∀ c ∈ pad2 n, c ≠ sep := by
  intro c hc
  refine digit_ne_sep c ?_ sep hsep
  have := pad2_all_digit n
  rw [List.all_eq_true] at this
  exact this c hc

/-- No character of `pad4` equals a non-digit separator. -/
theorem pad4_sepFree (n : Nat) (sep : Char) (hsep : isDigitChar sep = false) :
    ∀ c ∈ pad4 n, c ≠ sep := by
  intro c hc
  refine digit_ne_sep c ?_ sep hsep
  have := pad4_all_digit n
  rw [List.all_eq_true] at this
  exact this c hc

/-- Model: `digitsVal` inverts `pad4` below `10000`. -/
theorem digitsVal_pad4 (n : Nat) (h : n < 10000) : digitsVal (pad4 n) = n := by
  have e1 := charVal_digitChar (n / 1000 % 10) (by omega)
  have e2 := charVal_digitChar (n / 100 % 10) (by omega)
  have e3 := charVal_digitChar (n / 10 % 10) (by omega)
  have e4 := charVal_digitChar (n % 10) (by omega)
  simp only [digitsVal, pad4, List.foldl, e1, e2, e3, e4]
  omega

/-- Model: `digitsVal` inverts `pad2` below `100`. -/
theorem digitsVal_pad2 (n : Nat) (h : n < 100) : digitsVal (pad2 n) = n := by
  have e1 := charVal_digitChar (n / 10 % 10) (by omega)
  have e2 := charVal_digitChar (n % 10) (by omega)
  simp only [digitsVal, pad2, List.foldl, e1, e2]
  omega

/-- Model: `%Y` accepts a zero-padded four-digit year. -/
theorem matchComp_Y4_pad4 (y : Nat) (h : y < 10000) :
    matchComp .Y4 (pad4 y) = some y := by
  have hv := digitsVal_pad4 y h
  have hie : (pad4 y).isEmpty = false := rfl
  have hln : (pad4 y).length = 4 := rfl
  simp [matchComp, pad4_all_digit y, hie, hln, hv]

/-- Model: `%m` accepts a zero-padded valid month. -/
theorem matchComp_mo_pad2 (m : Nat) (h1 : 1 ≤ m) (h2 : m ≤ 12) :
    matchComp .mo (pad2 m) = some m := by
  have hv := digitsVal_pad2 m (by omega)
  have hie : (pad2 m).isEmpty = false := rfl
  have hln : (pad2 m).length = 2 := rfl
  simp [matchComp, pad2_all_digit m, hie, hln, hv, h1, h2]

/-- Model: `%d` accepts a zero-padded valid day. -/
theorem matchComp_dy_pad2 (d : Nat) (h1 : 1 ≤ d) (h2 : d ≤ 31) :
    matchComp .dy (pad2 d) = some d := by
  have hv := digitsVal_pad2 d (by omega)
  have hie : (pad2 d).isEmpty = false := rfl
  have hln : (pad2 d).length = 2 := rfl
  simp [matchComp, pad2_all_digit d, hie, hln, hv, h1, h2]

/-- Months have at most 31 days. -/
theorem daysInMonth_le31 (y m : Nat) : daysInMonth y m ≤ 31 := by
  unfold daysInMonth
  split_ifs <;> omega

/-- Re-parsing a valid date's ISO rendering with `%Y-%m-%d` returns the
same date (the `deduce_season_from_date` round trip). -/
theorem parseYmd_iso (d : PyDate) (hy1 : 1 ≤ d.year) (hy2 : d.year ≤ 9999)
    (hm1 : 1 ≤ d.month) (hm2 : d.month ≤ 12) (hd1 : 1 ≤ d.day)
    (hd2 : d.day ≤ daysInMonth d.year d.month) :
    parseWithFormat ⟨.ymd, '-', false⟩ (isoOfDate d) = some d := by
  have hsep : isDigitChar '-' = false := by decide
  unfold parseWithFormat isoOfDate
  rw [splitSep_append '-' (pad4 d.year) _ (pad4_sepFree d.year '-' hsep)]
  rw [splitSep_append '-' (pad2 d.month) _ (pad2_sepFree d.month '-' hsep)]
  rw [splitSep_sepFree '-' (pad2 d.day) (pad2_sepFree d.day '-' hsep)]
  show parseCore false (pad4 d.year) (pad2 d.month) (pad2 d.day) = some d
  unfold parseCore
  simp only [Bool.false_eq_true, if_false]
  rw [matchComp_Y4_pad4 d.year (by omega), matchComp_mo_pad2 d.month hm1 hm2,
    matchComp_dy_pad2 d.day hd1 (le_trans hd2 (daysInMonth_le31 d.year d.month))]
  simp [hy1, hd2]

/-- Inversion for `%m`: the month is in `1..12`. -/
theorem matchComp_mo_inv (part : List Char) (v : Nat)
    (h : matchComp .mo part = some v) : 1 ≤ v ∧ v ≤ 12 := by
  unfold matchComp at h
  dsimp only at h
  split at h
  · split at h
    · rename_i hc
      injection h with h
      subst h
      simp only [Bool.and_eq_true, decide_eq_true_eq] at hc
      exact ⟨hc.1.2, hc.2⟩
    · cases h
  · cases h

/-- Inversion for `%d`: the day is in `1..31`. -/
theorem matchComp_dy_inv (part : List Char) (v : Nat)
    (h : matchComp .dy part = some v) : 1 ≤ v ∧ v ≤ 31 := by
  unfold matchComp at h
  dsimp only at h
  split at h
  · split at h
    · rename_i hc
      injection h with h
      subst h
      simp only [Bool.and_eq_true, decide_eq_true_eq] at hc
      exact ⟨hc.1.2, hc.2⟩
    · cases h
  · cases h

/-- Inversion for `%Y`: the year is at most `9999`. -/
theorem matchComp_Y4_inv (part : List Char) (v : Nat)
    (h : matchComp .Y4 part = some v) : v ≤ 9999 := by
  unfold matchComp at h
  dsimp only at h
  split at h
  · rename_i hout
    split at h
    · rename_i hlen
      injection h with h
      subst h
      simp only [Bool.and_eq_true, decide_eq_true_eq] at hout hlen
      have := digitsVal_lt part hout.1
      rw [hlen] at this
      omega
    · cases h
  · cases h

/-- Inversion for `%y`: the raw two-digit year is at most `99`. -/
theorem matchComp_y2_inv (part : List Char) (v : Nat)
    (h : matchComp .y2 part = some v) : v ≤ 99 := by
  unfold matchComp at h
  dsimp only at h
  split at h
  · rename_i hout
    split at h
    · rename_i hlen
      injection h with h
      subst h
      simp only [Bool.and_eq_true, decide_eq_true_eq] at hout hlen
      have := digitsVal_lt part hout.1
      rw [hlen] at this
      omega
    · cases h
  · cases h

/-- Every date produced by `parseCore` is a valid `datetime`:
year in `1..9999`, month in `1..12`, day within the month. -/
theorem parseCore_valid (y2 : Bool) (py pm pd : List Char) (d : PyDate)
    (h : parseCore y2 py pm pd = some d) :
    1 ≤ d.year ∧ d.year ≤ 9999 ∧ 1 ≤ d.month ∧ d.month ≤ 12 ∧
    1 ≤ d.day ∧ d.day ≤ daysInMonth d.year d.month := by
  unfold parseCore at h
  split at h
  · rename_i yraw m dd hY hM hD
    dsimp only at h
    have hmb := matchComp_mo_inv _ m hM
    have hdb := matchComp_dy_inv _ dd hD
    by_cases hy2 : y2 = true
    · rw [if_pos hy2] at hY h
      have hyb := matchComp_y2_inv _ yraw hY
      by_cases h68 : yraw ≤ 68
      · rw [if_pos h68] at h
        split at h
        · rename_i hc
          injection h with h
          subst h
          simp only [Bool.and_eq_true, decide_eq_true_eq] at hc
          exact ⟨hc.1, by dsimp only; omega, hmb.1, hmb.2, hdb.1, hc.2⟩
        · exact Option.noConfusion h
      · rw [if_neg h68] at h
        split at h
        · rename_i hc
          injection h with h
          subst h
          simp only [Bool.and_eq_true, decide_eq_true_eq] at hc
          exact ⟨hc.1, by dsimp only; omega, hmb.1, hmb.2, hdb.1, hc.2⟩
        · exact Option.noConfusion h
    · rw [if_neg hy2] at hY h
      have hyb := matchComp_Y4_inv _ yraw hY
      split at h
      · rename_i hc
        injection h with h
        subst h
        simp only [Bool.and_eq_true, decide_eq_true_eq] at hc
        exact ⟨hc.1, hyb, hmb.1, hmb.2, hdb.1, hc.2⟩
      · exact Option.noConfusion h
  · exact Option.noConfusion h

/-- Validity carries from `parseCore` to `parseWithFormat`. -/
theorem parseWithFormat_valid (f : DFmt) (cs : List Char) (d : PyDate)
    (h : parseWithFormat f cs = some d) :
    1 ≤ d.year ∧ d.year ≤ 9999 ∧ 1 ≤ d.month ∧ d.month ≤ 12 ∧
    1 ≤ d.day ∧ d.day ≤ daysInMonth d.year d.month := by
  unfold parseWithFormat at h
  split at h
  · split at h
    · exact parseCore_valid _ _ _ _ _ h
    · exact parseCore_valid _ _ _ _ _ h
    · exact parseCore_valid _ _ _ _ _ h
  · exact Option.noConfusion h

/-- Validity carries through `firstParse`. -/
theorem firstParse_valid (fs : List DFmt) (cs : List Char) (d : PyDate)
    (h : firstParse fs cs = some d) :
    1 ≤ d.year ∧ d.year ≤ 9999 ∧ 1 ≤ d.month ∧ d.month ≤ 12 ∧
    1 ≤ d.day ∧ d.day ≤ daysInMonth d.year d.month := by
  induction fs with
  | nil => cases h
  | cons f rest ih =>
    unfold firstParse at h
    split at h
    · rename_i d' hp
      injection h with h
      subst h
      exact parseWithFormat_valid f cs _ hp
    · exact ih h

/-- Model: `firstParse` skips a prefix of failing formats. -/
theorem firstParse_skip (fs1 : List DFmt) (f : DFmt) (fs2 : List DFmt)
    (cs : List Char) (h : ∀ g ∈ fs1, parseWithFormat g cs = none) :
    firstParse (fs1 ++ f :: fs2) cs = firstParse (f :: fs2) cs := by
  induction fs1 with
  | nil => rfl
  | cons g t ih =>
    simp only [List.cons_append, firstParse]
    rw [h g (by simp)]
    exact ih (fun g' hg' => h g' (by simp [hg']))

/-- Model: `firstParse` fails when every format fails. -/
theorem firstParse_none (fs : List DFmt) (cs : List Char)
    (h : ∀ g ∈ fs, parseWithFormat g cs = none) : firstParse fs cs = none := by
  induction fs with
  | nil => rfl
  | cons f t ih =>
    simp only [firstParse]
    rw [h f (by simp)]
    exact ih (fun g hg => h g (by simp [hg]))

/-- C2 counterexample: with `PENDING` set with need `"league"` and a turn
whose text is not a supported league name, `_parse_input` neither merges
the text nor clears `PENDING` nor dispatches the stored intent: it
returns the not-supported message and leaves the pending context set. -/
theorem C2_cex :
    parse_input (some ⟨"league", .standings, exParsedC2⟩)
        (fun _ => exParsedC2) "Narnia League" =
      (some ⟨"league", .standings, exParsedC2⟩,
       .message (league_not_supported_msg "Narnia League")) ∧
    handle_query_route (some ⟨"league", .standings, exParsedC2⟩)
        (fun _ => exParsedC2) "Narnia League" =
      (some ⟨"league", .standings, exParsedC2⟩,
       .message (league_not_supported_msg "Narnia League")) := by
  constructor <;> rfl

/-- C2 amended: while `PendingContext` is set with need `"league"`, a turn
whose stripped text names a supported league (case-insensitively) is
consumed as the answer: the canonical league name is merged into the
stored parsed query, the pending slot is cleared before dispatch resumes,
and the originally stored intent is dispatched (shown here for stored
queries without a date field); a turn whose text is not a supported
league name leaves the pending slot set (see the counterexample); with no
pending context the turn is parsed fresh by `parse_user_prompt`. -/
theorem C2_clarification_consumption (p : PendingCtx)
    (f : String → Parsed) (msg canon : String)
    (hneed : p.need = "league")
    (hcanon : supportedLeagueCanon (lowerAscii (String.mk (pyStrip msg.toList))) =
      some canon)
    (hsport : p.parsed.sport = .football) :
    parse_input (some p) f msg =
      (none, .ok { p.parsed with league_name := some canon } p.intent) ∧
    (p.parsed.date = none →
      p.intent ∈ ([.standings, .fixture, .match_events, .player_stats,
        .bracket] : List Intent) →
      handle_query_route (some p) f msg =
        (none, .dispatch p.intent { p.parsed with league_name := some canon }
          (digitsVal (deriveSeason none p.parsed.season).toList))) ∧
    (∀ (g : String → Parsed) (m : String),
      parse_input none g m = (none, sportCheck (g m) (g m).intent)) := by
  have h1 : parse_input (some p) f msg =
      (none, sportCheck { p.parsed with league_name := some canon } p.intent) := by
    unfold parse_input
    dsimp only
    rw [hneed]
    simp only [eq_self_iff_true, if_true]
    rw [hcanon]
  have h2 : sportCheck { p.parsed with league_name := some canon } p.intent =
      .ok { p.parsed with league_name := some canon } p.intent := by
    unfold sportCheck
    simp [hsport]
  refine ⟨by rw [h1, h2], ?_, fun g m => rfl⟩
  intro hdate hmem
  unfold handle_query_route
  rw [h1, h2]
  dsimp only
  rw [hdate]
  simp only [truthyStr, Bool.false_eq_true, if_false]
  cases hI : p.intent <;> rw [hI] at hmem <;> simp only [List.mem_cons,
    List.not_mem_nil, or_false] at hmem <;> first
    | rfl
    | (exfalso; revert hmem; decide)

/-- C2 witness: a stored standings query resumed by the turn
`" PREMIER LEAGUE "`, which is stripped, matched case-insensitively,
merged, and dispatched with the pending slot cleared. -/
theorem C2_witness :
    parse_input (some ⟨"league", .standings, exParsedC2⟩)
        (fun _ => exParsedC2) " PREMIER LEAGUE " =
      (none, .ok { exParsedC2 with league_name := some "Premier League" }
        .standings) ∧
    handle_query_route (some ⟨"league", .standings, exParsedC2⟩)
        (fun _ => exParsedC2) " PREMIER LEAGUE " =
      (none, .dispatch .standings
        { exParsedC2 with league_name := some "Premier League" } 2023) :=
  ⟨(C2_clarification_consumption ⟨"league", .standings, exParsedC2⟩
      (fun _ => exParsedC2) " PREMIER LEAGUE " "Premier League"
      rfl (by decide) rfl).1,
   (C2_clarification_consumption ⟨"league", .standings, exParsedC2⟩
      (fun _ => exParsedC2) " PREMIER LEAGUE " "Premier League"
      rfl (by decide) rfl).2.1 rfl (by decide)⟩

/-- C3 counterexample: a name whose remote search yields nothing returns
`none` with a remote search issued, but the identical second call in the
same process returns the `lru_cache`-memoized miss without issuing the
remote search again. -/
theorem C3_cex :
    (team_name_to_id (fun _ _ _ => none) ⟨[], []⟩ "Atlantis FC").result = none ∧
    (team_name_to_id (fun _ _ _ => none) ⟨[], []⟩ "Atlantis FC").remoteCalled
      = true ∧
    (team_name_to_id (fun _ _ _ => none)
      (team_name_to_id (fun _ _ _ => none) ⟨[], []⟩ "Atlantis FC").state
      "Atlantis FC").result = none ∧
    (team_name_to_id (fun _ _ _ => none)
      (team_name_to_id (fun _ _ _ => none) ⟨[], []⟩ "Atlantis FC").state
      "Atlantis FC").remoteCalled = false := by
  refine ⟨rfl, rfl, rfl, rfl⟩

/-- C3 amended: a remote miss returns `none` and is not written to the
persistent team table, but the `lru_cache` memoizes it: an identical call
in the same process returns the stored miss without a new remote search;
only a fresh process (an empty memo over the same persistent table)
issues the remote search again. -/
theorem C3_team_miss_memoized
    (remote : String → Option Nat → Option Nat → Option TeamRec)
    (st : ResolverState) (name : String) (lg sn : Option Nat)
    (hmemo : st.teamMemo.find? (fun q => q.1 = (name, lg, sn)) = none)
    (hdb : findTeamCI st.teamTable name = none)
    (hremote : remote name (truthyOpt lg) (truthyOpt sn) = none) :
    (team_name_to_id remote st name lg sn).result = none ∧
    (team_name_to_id remote st name lg sn).remoteCalled = true ∧
    (team_name_to_id remote st name lg sn).state.teamTable = st.teamTable ∧
    (team_name_to_id remote (team_name_to_id remote st name lg sn).state
      name lg sn).result = none ∧
    (team_name_to_id remote (team_name_to_id remote st name lg sn).state
      name lg sn).remoteCalled = false ∧
    (team_name_to_id remote ⟨st.teamTable, []⟩ name lg sn).remoteCalled = true := by
  have h1 : team_name_to_id remote st name lg sn =
      ⟨none, { st with teamMemo := st.teamMemo ++ [((name, lg, sn), none)] },
       true⟩ := by
    unfold team_name_to_id
    dsimp only
    rw [hmemo, hdb, hremote]
  have hfind : (st.teamMemo ++ [((name, lg, sn), none)]).find?
      (fun q => q.1 = (name, lg, sn)) = some ((name, lg, sn), none) := by
    rw [find?_append_none _ _ _ hmemo]
    simp [List.find?_cons]
  have h2 : team_name_to_id remote
      { st with teamMemo := st.teamMemo ++ [((name, lg, sn), none)] }
      name lg sn =
      ⟨none, { st with teamMemo := st.teamMemo ++ [((name, lg, sn), none)] },
       false⟩ := by
    unfold team_name_to_id
    dsimp only
    rw [hfind]
  have h3 : (team_name_to_id remote ⟨st.teamTable, []⟩ name lg sn).remoteCalled
      = true := by
    unfold team_name_to_id
    dsimp only
    rw [show (([] : List (MemoKey × Option Nat)).find?
          (fun q => q.1 = (name, lg, sn))) = none from rfl]
    rw [show findTeamCI st.teamTable name = none from hdb]
    rw [hremote]
  exact ⟨by rw [h1], by rw [h1], by rw [h1], by rw [h1, h2], by rw [h1, h2], h3⟩

/-- C3 witness: the amended behaviour at a concrete miss (a remote oracle
with no result for the name, an empty table, and an empty memo). -/
theorem C3_witness :
    (team_name_to_id (fun _ _ _ => none) ⟨[], []⟩ "Atlantis FC" (some 39)).result
      = none ∧
    (team_name_to_id (fun _ _ _ => none) ⟨[], []⟩ "Atlantis FC"
      (some 39)).remoteCalled = true ∧
    (team_name_to_id (fun _ _ _ => none) ⟨[], []⟩ "Atlantis FC"
      (some 39)).state.teamTable = [] ∧
    (team_name_to_id (fun _ _ _ => none)
      (team_name_to_id (fun _ _ _ => none) ⟨[], []⟩ "Atlantis FC" (some 39)).state
      "Atlantis FC" (some 39)).result = none ∧
    (team_name_to_id (fun _ _ _ => none)
      (team_name_to_id (fun _ _ _ => none) ⟨[], []⟩ "Atlantis FC" (some 39)).state
      "Atlantis FC" (some 39)).remoteCalled = false ∧
    (team_name_to_id (fun _ _ _ => none) ⟨([] : List TeamRec), []⟩ "Atlantis FC"
      (some 39)).remoteCalled = true :=
  C3_team_miss_memoized (fun _ _ _ => none) ⟨[], []⟩ "Atlantis FC"
    (some 39) none rfl rfl rfl

/-- C4: on every two-digit/two-digit season string `YY/YY+1`,
`normalize_season` returns the four-digit year `"19YY"` when `YY ≥ 50`
and `"20YY"` when `YY < 50`. -/
theorem C4_two_digit_century : ∀ yy, yy < 100 →
    normalize_season (.str (String.mk
      [digitChar (yy / 10), digitChar (yy % 10), '/',
       digitChar (((yy + 1) % 100) / 10), digitChar (((yy + 1) % 100) % 10)])) =
    some (String.mk ((if 50 ≤ yy then ['1', '9'] else ['2', '0']) ++
      [digitChar (yy / 10), digitChar (yy % 10)])) := by
  decide

/-- C4 witness: `normalize_season "22/23" = "2022"` and
`normalize_season "95/96" = "1995"`. -/
theorem C4_witness :
    normalize_season (.str "22/23") = some "2022" ∧
    normalize_season (.str "95/96") = some "1995" :=
  ⟨C4_two_digit_century 22 (by decide), C4_two_digit_century 95 (by decide)⟩

/-- C5 counterexample: `normalize_season` succeeds on the integer input
`5`, returning `"5"`, but applied to that output it returns `none`, so
idempotence on its own output fails on non-four-digit integer inputs. -/
theorem C5_cex :
    normalize_season (.int 5) = some "5" ∧
    normalize_season (.str "5") = none := by
  decide

/-- C5 amended: `normalize_season` is idempotent on its own output for
every string input (an integer input is rendered with `str` and can fall
outside the parseable shapes, as the counterexample shows): whenever
`normalize_season` succeeds on a string, it returns the result unchanged
when applied to it again. -/
theorem C5_idempotent_on_strings (s r : String)
    (h : normalize_season (.str s) = some r) :
    normalize_season (.str r) = some r := by
  obtain ⟨cs, rfl, hlen, hdig⟩ := normalize_str_shape s r h
  exact normalize_fourDigit cs hlen hdig

/-- C5 witness: idempotence at the concrete parse `"2021/22" ↦ "2021"`. -/
theorem C5_witness : normalize_season (.str "2021") = some "2021" :=
  C5_idempotent_on_strings "2021/22" "2021" (by decide)

/-- C7: `standardize_date` tries the fixed format list in order, returns
the ISO form of the first format that parses, and returns `none` if no
format matches; in particular `"16-05-2025" ↦ "2025-05-16"`,
`"2025/05/16" ↦ "2025-05-16"`, and `"not a date" ↦ none`. -/
theorem C7_standardize_first_format :
    standardize_date "16-05-2025" = some "2025-05-16" ∧
    standardize_date "2025/05/16" = some "2025-05-16" ∧
    standardize_date "not a date" = none ∧
    (∀ (s : String) (fs1 : List DFmt) (f : DFmt) (fs2 : List DFmt) (d : PyDate),
      dateFormats = fs1 ++ f :: fs2 →
      (∀ g ∈ fs1, parseWithFormat g (pyStrip s.toList) = none) →
      parseWithFormat f (pyStrip s.toList) = some d →
      standardize_date s = some (String.mk (isoOfDate d))) ∧
    (∀ s : String, (∀ g ∈ dateFormats, parseWithFormat g (pyStrip s.toList) = none) →
      standardize_date s = none) := by
  refine ⟨by decide, by decide, by decide, ?_, ?_⟩
  · intro s fs1 f fs2 d heq hpre hf
    have hs : s ≠ "" := by
      intro hempty
      subst hempty
      have hall : ∀ g ∈ dateFormats, parseWithFormat g (pyStrip "".toList) = none := by
        decide
      have hfmem : f ∈ dateFormats := by
        rw [heq]
        simp
      rw [hall f hfmem] at hf
      cases hf
    unfold standardize_date
    rw [if_neg hs, heq, firstParse_skip fs1 f fs2 _ hpre]
    simp only [firstParse]
    rw [hf]
  · intro s hall
    unfold standardize_date
    by_cases hs : s = ""
    · rw [if_pos hs]
    · rw [if_neg hs, firstParse_none _ _ hall]

/-- C7 witness: the first-format-wins rule at `"16-05-2025"` — the first
two formats (`%Y-%m-%d`, `%Y/%m/%d`) fail, `%d-%m-%Y` parses, and its ISO
form is returned. -/
theorem C7_witness : standardize_date "16-05-2025" = some "2025-05-16" :=
  C7_standardize_first_format.2.2.2.1 "16-05-2025"
    [⟨.ymd, '-', false⟩, ⟨.ymd, '/', false⟩] ⟨.dmy, '-', false⟩
    [⟨.dmy, '/', false⟩, ⟨.mdy, '-', false⟩, ⟨.mdy, '/', false⟩,
     ⟨.dmy, '-', true⟩, ⟨.dmy, '/', true⟩, ⟨.mdy, '-', true⟩,
     ⟨.mdy, '/', true⟩, ⟨.ymd, '-', true⟩, ⟨.ymd, '/', true⟩]
    ⟨2025, 5, 16⟩ rfl (by decide) (by decide)

/-- C6: `deduce_season_from_date` standardizes the date first and fails
closed when that fails; otherwise the season is year − 1 for months
January–June and the year itself for July–December; in particular
`"2024-08-15" ↦ "2024"` and `"2024-02-15" ↦ "2023"`. -/
theorem C6_deduce_season :
    deduce_season_from_date "2024-08-15" = some "2024" ∧
    deduce_season_from_date "2024-02-15" = some "2023" ∧
    (∀ s : String, standardize_date s = none → deduce_season_from_date s = none) ∧
    (∀ (s : String) (d : PyDate),
      firstParse dateFormats (pyStrip s.toList) = some d →
      deduce_season_from_date s =
        some (natToStr (if d.month ≤ 6 then d.year - 1 else d.year))) := by
  refine ⟨by decide, by decide, ?_, ?_⟩
  · intro s h
    unfold deduce_season_from_date
    rw [h]
  · intro s d h
    have hs : s ≠ "" := by
      intro hempty
      subst hempty
      have : firstParse dateFormats (pyStrip "".toList) = none := by decide
      rw [this] at h
      cases h
    have hstd : standardize_date s = some (String.mk (isoOfDate d)) := by
      unfold standardize_date
      rw [if_neg hs, h]
    obtain ⟨hy1, hy2, hm1, hm2, hd1, hd2⟩ := firstParse_valid _ _ _ h
    unfold deduce_season_from_date
    rw [hstd]
    dsimp only [String.toList]
    rw [parseYmd_iso d hy1 hy2 hm1 hm2 hd1 hd2]

/-- C6 witness: the month rule applied at `"15/08/2024"` (parsed by the
`%d/%m/%Y` format; August is past June, so the season is the year). -/
theorem C6_witness : deduce_season_from_date "15/08/2024" = some "2024" :=
  C6_deduce_season.2.2.2 "15/08/2024" ⟨2024, 8, 15⟩ (by decide)

/-- C10: when `_handle_player_stats` reaches player resolution (league id
truthy and supported, league name not `'Unknown League'`), a player name
of more than one whitespace-separated word is truncated to exactly its
second word before `player_name_to_id` is called, and a single-word name
is passed unchanged. -/
theorem C10_player_second_word (parsed : Parsed) (l : Nat) (n : String)
    (hl : parsed.league_name ≠ some "Unknown League")
    (hsup : SUPPORTED_LEAGUES_IDS.contains l = true)
    (hl0 : l ≠ 0)
    (hn : parsed.player_name = some n) :
    (∀ w, (pySplitWs n.toList).get? 1 = some w →
      handle_player_stats_step parsed (some l) =
        .resolvePlayer (some (String.mk w))) ∧
    ((pySplitWs n.toList).length ≤ 1 →
      handle_player_stats_step parsed (some l) = .resolvePlayer (some n)) := by
  have hsup' : l ∈ SUPPORTED_LEAGUES_IDS := by simpa using hsup
  constructor
  · intro w hw
    obtain ⟨hlt, -⟩ := List.get?_eq_some.mp hw
    have hlen : 1 < (pySplitWs n.toList).length := hlt
    have hne : n ≠ "" := by
      intro hcontra
      rw [hcontra] at hw
      have hz : pySplitWs "".toList = [] := rfl
      rw [hz] at hw
      simp at hw
    have hw2 : (pySplitWs n.data)[1]? = some w := by
      rw [← List.get?_eq_getElem?]; exact hw
    have hlen2 : 1 < (pySplitWs n.data).length := hlen
    unfold handle_player_stats_step
    rw [hn]
    simp [truthyNat, hl0, hl, hsup', hne, hlen2, hw2]
  · intro hlen
    have hnlt : ¬ 1 < (pySplitWs n.data).length := by
      have h2 : (pySplitWs n.data).length ≤ 1 := hlen
      omega
    unfold handle_player_stats_step
    rw [hn]
    simp [truthyNat, hl0, hl, hsup', hnlt]

/-- C10 witness: `"Erling Haaland"` in a supported league resolves as
`"Haaland"`. -/
theorem C10_witness :
    handle_player_stats_step
      { intent := .player_stats, sport := .football,
        league_name := some "Premier League",
        player_name := some "Erling Haaland" } (some 39) =
      .resolvePlayer (some "Haaland") :=
  (C10_player_second_word
    { intent := .player_stats, sport := .football,
      league_name := some "Premier League",
      player_name := some "Erling Haaland" } 39 "Erling Haaland"
    (by decide) (by decide) (by decide) rfl).1 "Haaland".toList (by decide)

end Football
